import Mathlib

/-!
Verification of the gender-bias letter-analysis pipeline: a shallow
embedding of the publication-mention detector
(`genderbias/publications/__init__.py`) and of the
effort-vs-accomplishment detector (`genderbias/effort/__init__.py`),
together with proofs of the specified properties.

Numeric weights and biases are embedded as rationals: every constant in
the source (0.25, 0.5, 1, -1) is a dyadic rational, and the sums the code
forms are exact in binary floating point at these magnitudes, so `ℚ`
models the source arithmetic faithfully.
-/

namespace GenderBias

/-! ## Shared data model

`genderbias/detector.py` and `genderbias/document.py` are not among the
repository files under verification; only their call sites are.  The
structures below are modelled from the spec (sections 3 and 6). -/

namespace Issue

/-- Modelled from the spec: the fixed positive bias constant of `Issue`
("a fixed positive constant denotes positive/counteracting evidence");
`genderbias.detector` is absent from the sources. -/
def positive_result : ℚ := 1

/-- Modelled from the spec: the fixed negative bias constant of `Issue`
("a fixed negative constant denotes negative/bias-confirming evidence"). -/
def negative_result : ℚ := -1

end Issue

/-- Modelled from the spec: an `Issue` is a named category of concern with
a human-readable explanation, an optional fix suggestion (empty string when
absent) and a signed bias score. -/
structure Issue where
  name : String
  description : String
  fix : String
  bias : ℚ
deriving DecidableEq

/-- Modelled from the spec: a `Flag` is one occurrence of an `Issue` at a
half-open character span of the document. -/
structure Flag where
  start : ℕ
  stop : ℕ
  issue : Issue
deriving DecidableEq

/-- Modelled from the spec: a `Report` carries a detector-category label,
a collection of `Flag`s and a free-text summary. -/
structure Report where
  category : String
  flags : List Flag
  summary : String
deriving DecidableEq

/-- Modelled from the spec: `Report(name)` starts with no flags and an
empty summary. -/
def Report.new (category : String) : Report :=
  { category := category, flags := [], summary := "" }

/-- Modelled from the spec: `Report.add_flag` appends one flag. -/
def Report.add_flag (r : Report) (f : Flag) : Report :=
  { r with flags := r.flags ++ [f] }

/-- Modelled from the spec: `Report.set_summary` replaces the summary. -/
def Report.set_summary (r : Report) (s : String) : Report :=
  { r with summary := s }

/-- Modelled from the spec: the view of a `Document` the two detectors
consult — its raw text (`doc.text()`) and its ordered `(word, start, stop)`
triples (`doc.words_with_indices()`); segmentation itself is delegated to
the external parsing capability and is out of scope. -/
structure Document where
  text : String
  words_with_indices : List (String × ℕ × ℕ)

/-! ## Publication detector (`genderbias/publications/__init__.py`) -/

/-- The matches of the regular expression `"[^"]+"` over a character list,
as `re.findall` produces them, written as a one-pass scanner.  `acc = none`
means the scan is outside a candidate match; `acc = some content` means a
quote was opened and `content` collected so far.  Scanning left to right, a
match starts at a double quote, takes a nonempty maximal run of non-quote
characters, and ends at the closing quote; scanning resumes after the
closing quote.  A quote directly followed by another quote cannot start a
match (the `+` requires at least one character), so that second quote is
itself the next candidate opening quote; a quote with no later closing
quote matches nothing. -/
def findQuotedAux : List Char → Option (List Char) → List String
  | [], _ => []
  | c :: rest, none =>
    if c = '"' then findQuotedAux rest (some [])
    else findQuotedAux rest none
  | c :: rest, some content =>
    if c = '"' then
      if content = [] then findQuotedAux rest (some [])
      else ('"' :: (content ++ ['"'])).asString :: findQuotedAux rest none
    else findQuotedAux rest (some (content ++ [c]))

/-- All double-quoted substrings of a text, in match order (the source's
`re.findall(re.compile(r\x22[^\x22]+\x22), doc.text())`). -/
def quotedSubstrings (text : String) : List String :=
  findQuotedAux text.toList none

/-- One step of the accumulation loop of `identify_publications`: the body
`if match not in potential_publications: potential_publications[match] = 0.0`
followed by `potential_publications[match] += 0.25`, over an
insertion-ordered association list (a Python dict). -/
def dictAdd (m : List (String × ℚ)) (k : String) : List (String × ℚ) :=
  let m' := if k ∈ m.map Prod.fst then m else m ++ [(k, 0)]
  m'.map (fun p => if p.1 = k then (p.1, p.2 + 1/4) else p)

/-- `identify_publications` (publications/__init__.py lines 13-43): every
double-quoted substring accumulates 0.25 weight per occurrence into a
mapping from the quoted string (quotes included) to cumulative weight. -/
def identify_publications (text : String) : List (String × ℚ) :=
  (quotedSubstrings text).foldl dictAdd []

/-- Dictionary lookup on the association lists built by `dictAdd`. -/
def lookupWeight : List (String × ℚ) → String → Option ℚ
  | [], _ => none
  | p :: rest, k => if p.1 = k then some p.2 else lookupWeight rest k

/-- The `PublicationDetector`: its one configuration parameter. -/
structure PublicationDetector where
  min_publications : ℚ
deriving DecidableEq

/-- Modelled from the spec: the error taxonomy names `ConfigurationError`
(invalid detector parameters); no such class appears in the sources under
verification. -/
inductive DetectorError where
  | configurationError (message : String)
deriving DecidableEq

/-- `PublicationDetector.__init__` (lines 61-76): it stores
`kwargs.get("min_publications", 0.5)` and performs no validation, so no
exception path exists; the `Except` result is therefore always `ok`. -/
def PublicationDetector.init (opts : Option ℚ) :
    Except DetectorError PublicationDetector :=
  Except.ok { min_publications := opts.getD (1/2) }

/-- `math.ceil` on a rational, in the executable form `-⌊-q⌋`
(`mathCeil_eq_ceil` identifies it with Mathlib's `⌈q⌉`). -/
def mathCeil (q : ℚ) : ℤ :=
  -(Rat.floor (-q))

/-- The summed probability of all identified publications
(`sum(identify_publications(doc).values())`). -/
def pubCount (text : String) : ℚ :=
  ((identify_publications text).map Prod.snd).sum

/-- `PublicationDetector.get_summary` (lines 78-104). -/
def PublicationDetector.get_summary (d : PublicationDetector)
    (doc : Document) : String :=
  if pubCount doc.text < d.min_publications then
    "This document does not mention many publications. " ++
      "Try referencing more concrete publications or work " ++
      "byproducts, if possible."
  else if d.min_publications > 1 then
    "The text appears to mention at least " ++
      toString (mathCeil d.min_publications) ++ " publications."
  else
    "The text appears to mention at least one publication."

/-- `PublicationDetector.get_report` (lines 106-119): a fresh
`Report("Publications")` whose summary is `get_summary`; no flag is added. -/
def PublicationDetector.get_report (d : PublicationDetector)
    (doc : Document) : Report :=
  (Report.new "Publications").set_summary (d.get_summary doc)

/-! ## Effort-vs-accomplishment detector (`genderbias/effort/__init__.py`)

The word lists `EFFORT_WORDS` and `ACCOMPLISHMENT_WORDS` are loaded from
wordlist files that are not among the sources under verification, so every
definition takes them as parameters.  The external parser (`spacy`) is out
of scope: its output for `nlp(doc.text())` is embedded as a `List Token`
parameter carrying exactly the fields the detector consults. -/

/-- `_PRONOUNS_TO_IGNORE` (effort/__init__.py line 21). -/
def _PRONOUNS_TO_IGNORE : List String := ["me", "myself", "I"]

/-- One dependent of a token's syntactic head, as the detector reads it:
`reference_token.pos_` and `reference_token.text`. -/
structure RefToken where
  pos_ : String
  text : String
deriving DecidableEq

/-- A token of the external dependency parse, restricted to the fields the
detector consults: `token.text`, `token.dep_`, `token.head.children`
(flattened into `head_children`), and `token.sent.start_char` /
`token.sent.end_char`. -/
structure Token where
  text : String
  dep_ : String
  head_children : List RefToken
  sent_start_char : ℕ
  sent_end_char : ℕ
deriving DecidableEq

/-- The tuples collected into the `flags` set of Pass B:
`(start, stop, warning, suggestion, bias)`. -/
abbrev FlagTuple := ℕ × ℕ × String × String × ℚ

/-- The reference-subject test of Pass B (lines 113-116):
`reference_token.pos_ in ["PRON", "PROPN"] and reference_token.text not in
_PRONOUNS_TO_IGNORE`. -/
def isReferencedSubject (r : RefToken) : Bool :=
  decide (r.pos_ ∈ ["PRON", "PROPN"]) && decide (r.text ∉ _PRONOUNS_TO_IGNORE)

/-- The classification of an adjectival-complement token once a referenced
subject is found (lines 117-141): accomplishment words first (full positive
bias, no suggestion), then effort words (full negative bias, with a
suggestion), else nothing.  The token's raw `text` is tested, without
lowercasing.  The `Bool` records which counter the branch increments
(`true` for `accomplishment_words`). -/
def passBClassify (EFFORT_WORDS ACCOMPLISHMENT_WORDS : List String)
    (token : Token) : Option (Bool × FlagTuple) :=
  if token.text ∈ ACCOMPLISHMENT_WORDS then
    some (true,
      (token.sent_start_char, token.sent_end_char,
        "The word '" ++ token.text ++
          "' refers to explicit accomplishment rather than effort.",
        "",
        Issue.positive_result))
  else if token.text ∈ EFFORT_WORDS then
    some (false,
      (token.sent_start_char, token.sent_end_char,
        "The word '" ++ token.text ++
          "' tends to speak about effort more than accomplishment.",
        "Try replacing with phrasing that emphasizes accomplishment.",
        Issue.negative_result))
  else
    none

/-- Pass B for one token (lines 105-151): nothing unless the dependency
label is `acomp`; otherwise one classified entry per dependent of the head
that passes the referenced-subject test. -/
def passBTokenEntries (EFFORT_WORDS ACCOMPLISHMENT_WORDS : List String)
    (token : Token) : List (Bool × FlagTuple) :=
  if token.dep_ = "acomp" then
    (token.head_children.filter isReferencedSubject).filterMap
      (fun _ => passBClassify EFFORT_WORDS ACCOMPLISHMENT_WORDS token)
  else []

/-- Pass B over the whole parsed document, in token order. -/
def passBEntries (EFFORT_WORDS ACCOMPLISHMENT_WORDS : List String)
    (tokens : List Token) : List (Bool × FlagTuple) :=
  (tokens.map (passBTokenEntries EFFORT_WORDS ACCOMPLISHMENT_WORDS)).flatten

/-- The `effort_words` counter after Pass B: one increment per classified
effort entry (per qualifying reference token, before deduplication). -/
def effort_words_count (EFFORT_WORDS ACCOMPLISHMENT_WORDS : List String)
    (tokens : List Token) : ℕ :=
  (passBEntries EFFORT_WORDS ACCOMPLISHMENT_WORDS tokens).countP (fun e => !e.1)

/-- The `accomplishment_words` counter after Pass B. -/
def accomplishment_words_count (EFFORT_WORDS ACCOMPLISHMENT_WORDS : List String)
    (tokens : List Token) : ℕ :=
  (passBEntries EFFORT_WORDS ACCOMPLISHMENT_WORDS tokens).countP (fun e => e.1)

/-- The deduplicated Pass-B flag tuples (lines 62-63 and 143-151: the
Python `set` keeps each tuple once; `List.dedup` keeps first occurrences,
which fixes the unspecified set iteration order). -/
def passBFlagTuples (EFFORT_WORDS ACCOMPLISHMENT_WORDS : List String)
    (tokens : List Token) : List FlagTuple :=
  ((passBEntries EFFORT_WORDS ACCOMPLISHMENT_WORDS tokens).map Prod.snd).dedup

/-- The `Flag` built from one Pass-B tuple (lines 153-161). -/
def tupleFlag (t : FlagTuple) : Flag :=
  { start := t.1, stop := t.2.1,
    issue := { name := "Effort vs Accomplishment", description := t.2.2.1,
               fix := t.2.2.2.1, bias := t.2.2.2.2 } }

/-- Python `str.lower` (`word.lower()`), embedded as per-character
lowercasing of the text. -/
def strLower (s : String) : String :=
  (s.toList.map Char.toLower).asString

/-- Pass A on one `(word, start, stop)` triple (lines 65-100): a halved
negative flag when the lowercased word is an effort word, and (a second,
independent `if`) a halved positive flag with no fix when it is an
accomplishment word. -/
def effortLexicalFlagsFor (EFFORT_WORDS ACCOMPLISHMENT_WORDS : List String)
    (w : String × ℕ × ℕ) : List Flag :=
  (if strLower w.1 ∈ EFFORT_WORDS then
    [{ start := w.2.1, stop := w.2.2,
       issue := { name := "Effort vs Accomplishment",
                  description := "The word '" ++ w.1 ++
                    "' tends to speak more about effort than concrete accomplishment.",
                  fix := "Speak about concrete achievement rather than abstract effort.",
                  bias := Issue.negative_result * (1/2) } }]
   else []) ++
  (if strLower w.1 ∈ ACCOMPLISHMENT_WORDS then
    [{ start := w.2.1, stop := w.2.2,
       issue := { name := "Effort vs Accomplishment",
                  description := "The word '" ++ w.1 ++
                    "' illustrates concrete accomplishment.",
                  fix := "",
                  bias := Issue.positive_result * (1/2) } }]
   else [])

/-- Pass A over the whole document, in word order. -/
def effortLexicalFlags (EFFORT_WORDS ACCOMPLISHMENT_WORDS : List String)
    (ws : List (String × ℕ × ℕ)) : List Flag :=
  (ws.map (effortLexicalFlagsFor EFFORT_WORDS ACCOMPLISHMENT_WORDS)).flatten

/-- `EffortDetector.get_report` (lines 42-170): Pass A flags are added in
word order, then the deduplicated Pass-B flags, and the summary is set only
when `0 < effort_words <= accomplishment_words` — and then interpolates
`effort_words` into both slots of the message. -/
def EffortDetector.get_report (EFFORT_WORDS ACCOMPLISHMENT_WORDS : List String)
    (doc : Document) (parsed : List Token) : Report :=
  let effort_words := effort_words_count EFFORT_WORDS ACCOMPLISHMENT_WORDS parsed
  let accomplishment_words :=
    accomplishment_words_count EFFORT_WORDS ACCOMPLISHMENT_WORDS parsed
  let report :=
    (effortLexicalFlags EFFORT_WORDS ACCOMPLISHMENT_WORDS
        doc.words_with_indices).foldl Report.add_flag
      (Report.new "Effort vs Accomplishment")
  let report :=
    ((passBFlagTuples EFFORT_WORDS ACCOMPLISHMENT_WORDS parsed).map
        tupleFlag).foldl Report.add_flag report
  if 0 < effort_words ∧ effort_words ≤ accomplishment_words then
    report.set_summary
      ("This document has a high ratio of words suggesting effort (" ++
        toString effort_words ++
        ") to words suggesting concrete accomplishment (" ++
        toString effort_words ++ ").")
  else
    report

/-! ## Concrete example inputs used by the theorems below -/

/-- The spec's worked example text for `identify_publications`. -/
def exPublicationText : String :=
  "He published \"Deep Learning Advances\" and cited \"Deep Learning Advances\" again."

/-- An effort word list with one entry, for the concrete examples. -/
def exEffortWords : List String := ["meticulous"]

/-- An accomplishment word list with two entries, for the concrete
examples. -/
def exAccomplishmentWords : List String := ["outstanding", "brilliant"]

/-- A document for the summary example; Pass A input is irrelevant to the
summary, so the word segmentation is left empty. -/
def exSummaryDoc : Document :=
  { text := "She is meticulous. Her work is outstanding. Her thesis is brilliant.",
    words_with_indices := [] }

/-- A parse of `exSummaryDoc` in which one adjectival complement is an
effort word and two are accomplishment words, each with one referenced
subject, so Pass B counts 1 effort token and 2 accomplishment tokens. -/
def exSummaryTokens : List Token :=
  [{ text := "meticulous", dep_ := "acomp",
     head_children := [{ pos_ := "PRON", text := "She" }],
     sent_start_char := 0, sent_end_char := 18 },
   { text := "outstanding", dep_ := "acomp",
     head_children := [{ pos_ := "PRON", text := "it" }],
     sent_start_char := 19, sent_end_char := 43 },
   { text := "brilliant", dep_ := "acomp",
     head_children := [{ pos_ := "PRON", text := "it" }],
     sent_start_char := 44, sent_end_char := 69 }]

/-- The parse of "I am thorough." — the only candidate referenced subject
of the adjectival complement is the first-person pronoun "I". -/
def exSelfToken : Token :=
  { text := "thorough", dep_ := "acomp",
    head_children := [{ pos_ := "PRON", text := "I" }],
    sent_start_char := 0, sent_end_char := 14 }

/-- A parse token for a capitalized, sentence-initial effort word used as
an adjectival complement with a valid referenced subject ("Thorough is
what she is.", with "Thorough" the `acomp` of the copula). -/
def exCapitalToken : Token :=
  { text := "Thorough", dep_ := "acomp",
    head_children := [{ pos_ := "PRON", text := "she" }],
    sent_start_char := 0, sent_end_char := 24 }

/-- An effort word list containing only the lowercase form "thorough". -/
def exThoroughList : List String := ["thorough"]

/-- A parse token whose adjectival complement is an accomplishment word
with one referenced subject, for the span and dedup examples. -/
def exSpanToken : Token :=
  { text := "groundbreaking", dep_ := "acomp",
    head_children := [{ pos_ := "PRON", text := "it" }],
    sent_start_char := 31, sent_end_char := 58 }

/-! ## Properties -/


lemma lookupWeight_eq_none_iff (m : List (String × ℚ)) (k : String) :
    lookupWeight m k = none ↔ k ∉ m.map Prod.fst := by
  induction m with
  | nil => simp [lookupWeight]
  | cons p rest ih =>
    rw [List.map_cons, List.mem_cons]
    by_cases h : p.1 = k
    · subst h; simp [lookupWeight]
    · have hks : ¬k = p.1 := fun hk => h hk.symm
      rw [lookupWeight, if_neg h, ih]
      simp [hks]

lemma lookupWeight_append (m₁ m₂ : List (String × ℚ)) (k : String) :
    lookupWeight (m₁ ++ m₂) k = (lookupWeight m₁ k).or (lookupWeight m₂ k) := by
  induction m₁ with
  | nil => simp [lookupWeight]
  | cons p rest ih =>
    by_cases h : p.1 = k
    · simp [lookupWeight, h]
    · simp [lookupWeight, h, ih]

lemma lookupWeight_map_incrKey (m : List (String × ℚ)) (k k' : String) :
    lookupWeight (m.map (fun p => if p.1 = k then (p.1, p.2 + 1/4) else p)) k' =
      (lookupWeight m k').map (fun v => if k' = k then v + 1/4 else v) := by
  induction m with
  | nil => simp [lookupWeight]
  | cons p rest ih =>
    by_cases h1 : p.1 = k'
    · by_cases h2 : p.1 = k
      · subst h1; subst h2
        simp [lookupWeight]
      · subst h1
        have hk'k : ¬p.1 = k := h2
        simp [lookupWeight, h2, hk'k]
    · by_cases h2 : p.1 = k
      · have hk'k : ¬k' = k := fun hh => h1 (by rw [h2, ← hh])
        have hkk' : ¬k = k' := fun hh => hk'k hh.symm
        simp only [lookupWeight, List.map_cons, if_pos h2, if_neg h1, if_neg hkk']
        simpa [hk'k] using ih
      · simp only [lookupWeight, List.map_cons, if_neg h2, if_neg h1]
        exact ih

lemma lookupWeight_dictAdd (m : List (String × ℚ)) (k k' : String) :
    lookupWeight (dictAdd m k) k' =
      if k' = k then some ((lookupWeight m k).getD 0 + 1/4)
      else lookupWeight m k' := by
  unfold dictAdd
  by_cases hm : k ∈ m.map Prod.fst
  · rw [if_pos hm, lookupWeight_map_incrKey]
    by_cases hk : k' = k
    · subst hk
      have hs : lookupWeight m k' ≠ none := by
        rw [ne_eq, lookupWeight_eq_none_iff]; simpa using hm
      obtain ⟨v, hv⟩ := Option.ne_none_iff_exists'.mp hs
      simp [hv]
    · simp [hk]
  · rw [if_neg hm, List.map_append, lookupWeight_append, lookupWeight_map_incrKey]
    by_cases hk : k' = k
    · subst hk
      have hnone : lookupWeight m k' = none := (lookupWeight_eq_none_iff m k').mpr hm
      simp [hnone, lookupWeight]
    · have hkk : ¬k = k' := fun hh => hk hh.symm
      cases hlv : lookupWeight m k' with
      | none => simp [hk, lookupWeight, hkk, hlv]
      | some v => simp [hk, lookupWeight, hkk, hlv]

lemma lookupWeight_foldl_dictAdd (ms : List String) :
    ∀ (m : List (String × ℚ)) (k : String),
      lookupWeight (ms.foldl dictAdd m) k =
        if ms.count k = 0 then lookupWeight m k
        else some ((lookupWeight m k).getD 0 + (ms.count k : ℚ) * (1/4)) := by
  induction ms with
  | nil => simp
  | cons a tl ih =>
    intro m k
    rw [List.foldl_cons, ih, lookupWeight_dictAdd]
    by_cases hak : k = a
    · subst hak
      rw [if_pos rfl, List.count_cons_self]
      by_cases h0 : tl.count k = 0
      · rw [if_pos h0, if_neg (by omega), h0]
        norm_num
      · rw [if_neg h0, if_neg (by omega)]
        simp only [Option.getD_some]
        congr 1
        push_cast
        ring
    · rw [if_neg hak]
      have hcount : (a :: tl).count k = tl.count k := by
        rw [List.count_cons]
        have hka : ¬a = k := fun hh => hak hh.symm
        simp [hka]
      rw [hcount]


lemma mathCeil_eq_ceil (q : ℚ) : mathCeil q = ⌈q⌉ := by
  unfold mathCeil
  rw [Rat.floor_def', ← Rat.floor_def, Int.floor_neg, neg_neg]

lemma dictAdd_values_nonneg {m : List (String × ℚ)} (k : String)
    (h : ∀ p ∈ m, 0 ≤ p.2) : ∀ p ∈ dictAdd m k, 0 ≤ p.2 := by
  intro p hp
  unfold dictAdd at hp
  obtain ⟨q, hq, rfl⟩ := List.mem_map.mp hp
  have hq2 : 0 ≤ q.2 := by
    split at hq
    · exact h q hq
    · rcases List.mem_append.mp hq with hq' | hq'
      · exact h q hq'
      · simp only [List.mem_singleton] at hq'
        simp [hq']
  by_cases hqk : q.1 = k <;> simp [hqk] <;> linarith

lemma foldl_dictAdd_values_nonneg (ms : List String) :
    ∀ (m : List (String × ℚ)), (∀ p ∈ m, 0 ≤ p.2) →
      ∀ p ∈ ms.foldl dictAdd m, 0 ≤ p.2 := by
  induction ms with
  | nil => intro m h; simpa using h
  | cons a tl ih =>
    intro m h
    rw [List.foldl_cons]
    exact ih _ (dictAdd_values_nonneg a h)

lemma pubCount_nonneg (text : String) : 0 ≤ pubCount text := by
  unfold pubCount
  apply List.sum_nonneg
  intro x hx
  simp only [List.mem_map] at hx
  obtain ⟨p, hp, rfl⟩ := hx
  exact foldl_dictAdd_values_nonneg (quotedSubstrings text) [] (by simp) p hp

/-- C2: for every input text, `identify_publications` returns a mapping
whose keys are exactly the double-quoted substrings of the text (quotes
included) and whose value for each key is 0.25 times the number of
occurrences of that quoted substring; on the spec's worked example the
result is the single key "Deep Learning Advances" (with quotes) with
cumulative weight 0.5. -/
theorem identify_publications_weights :
    (∀ (text k : String),
      lookupWeight (identify_publications text) k =
        if (quotedSubstrings text).count k = 0 then none
        else some (((quotedSubstrings text).count k : ℚ) * (1/4))) ∧
    (∀ (text k : String),
      k ∈ (identify_publications text).map Prod.fst ↔
        k ∈ quotedSubstrings text) ∧
    identify_publications exPublicationText =
      [("\"Deep Learning Advances\"", 1/2)] := by
  have hmain : ∀ (text k : String),
      lookupWeight (identify_publications text) k =
        if (quotedSubstrings text).count k = 0 then none
        else some (((quotedSubstrings text).count k : ℚ) * (1/4)) := by
    intro text k
    rw [identify_publications, lookupWeight_foldl_dictAdd]
    simp [lookupWeight]
  refine ⟨hmain, ?_, ?_⟩
  · intro text k
    have hc := List.count_eq_zero (l := quotedSubstrings text) (a := k)
    by_cases h : (quotedSubstrings text).count k = 0
    · have hk : k ∉ quotedSubstrings text := hc.mp h
      have hlw : lookupWeight (identify_publications text) k = none := by
        rw [hmain]; simp [h]
      have hnk : k ∉ (identify_publications text).map Prod.fst :=
        (lookupWeight_eq_none_iff _ _).mp hlw
      simp [hk, hnk]
    · have hk : k ∈ quotedSubstrings text := by
        by_contra hq
        exact h (hc.mpr hq)
      have hlw : lookupWeight (identify_publications text) k ≠ none := by
        rw [hmain]; simp [h]
      have hnk : k ∈ (identify_publications text).map Prod.fst := by
        by_contra hq
        exact hlw ((lookupWeight_eq_none_iff _ _).mpr hq)
      simp [hk, hnk]
  · have h : quotedSubstrings exPublicationText =
        ["\"Deep Learning Advances\"", "\"Deep Learning Advances\""] := by decide
    rw [identify_publications, h]
    simp [dictAdd]
    norm_num


/-- C7: `PublicationDetector.get_summary` returns the
insufficient-publications message when the summed weight of
`identify_publications` is strictly below `min_publications`; otherwise,
when `min_publications > 1`, a message that the text mentions at least
`ceil(min_publications)` publications; otherwise the at-least-one message.
With the default `min_publications = 0.5`, a document with zero quoted
substrings yields the insufficient-publications summary. -/
theorem publication_get_summary_cases :
    ∀ (d : PublicationDetector) (doc : Document),
      (pubCount doc.text < d.min_publications →
        d.get_summary doc =
          "This document does not mention many publications. Try referencing more concrete publications or work byproducts, if possible.") ∧
      (d.min_publications ≤ pubCount doc.text → 1 < d.min_publications →
        d.get_summary doc =
          "The text appears to mention at least " ++
            toString ⌈d.min_publications⌉ ++ " publications.") ∧
      (d.min_publications ≤ pubCount doc.text → d.min_publications ≤ 1 →
        d.get_summary doc =
          "The text appears to mention at least one publication.") ∧
      (quotedSubstrings doc.text = [] →
        PublicationDetector.init none =
          Except.ok { min_publications := 1/2 } ∧
        PublicationDetector.get_summary { min_publications := 1/2 } doc =
          "This document does not mention many publications. Try referencing more concrete publications or work byproducts, if possible.") := by
  intro d doc
  refine ⟨?_, ?_, ?_, ?_⟩
  · intro h
    unfold PublicationDetector.get_summary
    rw [if_pos h]
    decide
  · intro h1 h2
    unfold PublicationDetector.get_summary
    rw [if_neg (not_lt.mpr h1), if_pos h2, mathCeil_eq_ceil]
  · intro h1 h2
    unfold PublicationDetector.get_summary
    rw [if_neg (not_lt.mpr h1), if_neg (not_lt.mpr h2)]
  · intro hq
    have hpc : pubCount doc.text = 0 := by
      unfold pubCount identify_publications
      rw [hq]
      simp
    refine ⟨rfl, ?_⟩
    unfold PublicationDetector.get_summary
    rw [if_pos (by rw [hpc]; norm_num)]
    decide

/-- C8: for every document, the `Report` returned by
`PublicationDetector.get_report` contains no per-location flags: its flag
collection is empty and only its summary (never empty) and its category
label are populated. -/
theorem publication_get_report_no_flags :
    ∀ (d : PublicationDetector) (doc : Document),
      (d.get_report doc).flags = [] ∧
      (d.get_report doc).category = "Publications" ∧
      (d.get_report doc).summary = d.get_summary doc ∧
      (d.get_report doc).summary ≠ "" := by
  intro d doc
  refine ⟨rfl, rfl, rfl, ?_⟩
  show d.get_summary doc ≠ ""
  unfold PublicationDetector.get_summary
  split_ifs with h1 h2
  · decide
  · intro h
    have hl := congrArg String.length h
    rw [String.length_append, String.length_append] at hl
    have e1 : ("The text appears to mention at least ").length = 37 := by decide
    have e2 : (" publications.").length = 14 := by decide
    have e3 : ("" : String).length = 0 := by decide
    omega
  · decide

/-- C9 counterexample: constructing a `PublicationDetector` with the
invalid parameter `min_publications = -1` does not fail with a
`ConfigurationError` — the constructor performs no validation and returns
the detector. -/
theorem publication_init_negative_not_error :
    PublicationDetector.init (some (-1)) =
      Except.ok { min_publications := -1 } ∧
    ∀ e, PublicationDetector.init (some (-1)) ≠ Except.error e := by
  constructor
  · rfl
  · intro e h
    exact Except.noConfusion h

/-- C9 (amended): constructing a `PublicationDetector` with a negative
`min_publications` succeeds without any error: the value is stored as
given and the detector remains usable — its `get_summary` still returns
the at-least-one-publication message on every document. -/
theorem publication_init_negative_accepted :
    ∀ (q : ℚ) (doc : Document), q < 0 →
      PublicationDetector.init (some q) =
        Except.ok { min_publications := q } ∧
      PublicationDetector.get_summary { min_publications := q } doc =
        "The text appears to mention at least one publication." := by
  intro q doc hq
  refine ⟨rfl, ?_⟩
  unfold PublicationDetector.get_summary
  have h1 : ¬(pubCount doc.text < q) :=
    not_lt.mpr (le_of_lt (lt_of_lt_of_le hq (pubCount_nonneg doc.text)))
  have h2 : ¬((q : ℚ) > 1) := by
    intro hgt
    linarith
  rw [if_neg h1, if_neg h2]

/-- Witness for C9's amended theorem at `min_publications = -1` and an
empty document. -/
theorem publication_init_negative_accepted_witness :
    PublicationDetector.init (some (-1)) =
      Except.ok { min_publications := -1 } ∧
    PublicationDetector.get_summary { min_publications := -1 }
        { text := "", words_with_indices := [] } =
      "The text appears to mention at least one publication." :=
  publication_init_negative_accepted (-1)
    { text := "", words_with_indices := [] } (by norm_num)


lemma foldl_add_flag (fs : List Flag) :
    ∀ (r : Report), fs.foldl Report.add_flag r =
      { r with flags := r.flags ++ fs } := by
  induction fs with
  | nil => intro r; simp
  | cons f tl ih =>
    intro r
    rw [List.foldl_cons, ih]
    simp [Report.add_flag]

lemma effort_get_report_eq (EFF ACC : List String) (doc : Document)
    (parsed : List Token) :
    EffortDetector.get_report EFF ACC doc parsed =
      { category := "Effort vs Accomplishment",
        flags := effortLexicalFlags EFF ACC doc.words_with_indices ++
          (passBFlagTuples EFF ACC parsed).map tupleFlag,
        summary :=
          if 0 < effort_words_count EFF ACC parsed ∧
              effort_words_count EFF ACC parsed ≤
                accomplishment_words_count EFF ACC parsed then
            "This document has a high ratio of words suggesting effort (" ++
              toString (effort_words_count EFF ACC parsed) ++
              ") to words suggesting concrete accomplishment (" ++
              toString (effort_words_count EFF ACC parsed) ++ ")."
          else "" } := by
  unfold EffortDetector.get_report
  simp only [foldl_add_flag, Report.new, Report.set_summary]
  split_ifs with h <;> simp

lemma tupleFlag_injective : Function.Injective tupleFlag := by
  intro a b h
  obtain ⟨a1, a2, a3, a4, a5⟩ := a
  obtain ⟨b1, b2, b3, b4, b5⟩ := b
  simp only [tupleFlag, Flag.mk.injEq, Issue.mk.injEq] at h
  simp [Prod.ext_iff]
  tauto

/-- C6: the Pass-B flags added to an `EffortDetector` report are
deduplicated by full-tuple equality: the Pass-B section of the report's
flag list contains no duplicate, and a tuple reached via several
dependency paths appears in it exactly once. -/
theorem effort_passB_no_duplicate_flags :
    ∀ (EFF ACC : List String) (doc : Document) (parsed : List Token),
      ∃ lexical,
        (EffortDetector.get_report EFF ACC doc parsed).flags =
          lexical ++ (passBFlagTuples EFF ACC parsed).map tupleFlag ∧
        ((passBFlagTuples EFF ACC parsed).map tupleFlag).Nodup ∧
        (∀ tup, tup ∈ (passBEntries EFF ACC parsed).map Prod.snd ↔
          tup ∈ passBFlagTuples EFF ACC parsed) := by
  intro EFF ACC doc parsed
  refine ⟨effortLexicalFlags EFF ACC doc.words_with_indices, ?_, ?_, ?_⟩
  · rw [effort_get_report_eq]
  · exact (List.nodup_dedup _).map tupleFlag_injective
  · intro tup
    exact (List.mem_dedup).symm


/-- C5: every flag emitted by `EffortDetector`'s syntactic Pass B takes
as its (start, stop) span the character span of the sentence enclosing the
matched adjectival-complement token. -/
theorem effort_passB_flag_span_is_sentence :
    ∀ (EFF ACC : List String) (parsed : List Token) (f : Flag),
      f ∈ (passBFlagTuples EFF ACC parsed).map tupleFlag →
      ∃ t ∈ parsed, t.dep_ = "acomp" ∧
        f.start = t.sent_start_char ∧ f.stop = t.sent_end_char := by
  intro EFF ACC parsed f hf
  obtain ⟨tup, htup, rfl⟩ := List.mem_map.mp hf
  rw [passBFlagTuples, List.mem_dedup] at htup
  obtain ⟨en, hen, rfl⟩ := List.mem_map.mp htup
  rw [passBEntries, List.mem_flatten] at hen
  obtain ⟨l, hl, hel⟩ := hen
  obtain ⟨t, ht, rfl⟩ := List.mem_map.mp hl
  refine ⟨t, ht, ?_⟩
  unfold passBTokenEntries at hel
  by_cases hd : t.dep_ = "acomp"
  · rw [if_pos hd] at hel
    obtain ⟨r, hr, hre⟩ := List.mem_filterMap.mp hel
    unfold passBClassify at hre
    split_ifs at hre with h1 h2
    · cases hre
      exact ⟨hd, rfl, rfl⟩
    · cases hre
      exact ⟨hd, rfl, rfl⟩
  · rw [if_neg hd] at hel
    simp at hel

/-- Witness for C5 at a concrete one-token parse. -/
theorem effort_passB_flag_span_is_sentence_witness :
    ∃ t ∈ [exSpanToken], t.dep_ = "acomp" ∧
      (tupleFlag (31, 58,
        "The word 'groundbreaking' refers to explicit accomplishment rather than effort.",
        "", Issue.positive_result)).start = t.sent_start_char ∧
      (tupleFlag (31, 58,
        "The word 'groundbreaking' refers to explicit accomplishment rather than effort.",
        "", Issue.positive_result)).stop = t.sent_end_char :=
  effort_passB_flag_span_is_sentence [] ["groundbreaking"] [exSpanToken]
    (tupleFlag (31, 58,
      "The word 'groundbreaking' refers to explicit accomplishment rather than effort.",
      "", Issue.positive_result)) (by decide)

/-- C3: for every adjectival-complement token whose only sibling
dependents tagged as pronoun or proper noun are the first-person forms
"I", "me" or "myself", Pass B emits no flag for that token. -/
theorem effort_passB_self_reference_excluded :
    ∀ (EFF ACC : List String) (t : Token),
      (∀ r ∈ t.head_children, (r.pos_ = "PRON" ∨ r.pos_ = "PROPN") →
        r.text ∈ _PRONOUNS_TO_IGNORE) →
      passBTokenEntries EFF ACC t = [] := by
  intro EFF ACC t h
  unfold passBTokenEntries
  split_ifs with hd
  · have hfil : t.head_children.filter isReferencedSubject = [] := by
      rw [List.filter_eq_nil_iff]
      intro r hr
      unfold isReferencedSubject
      by_cases hp : r.pos_ ∈ ["PRON", "PROPN"]
      · have hin := h r hr (by simpa using hp)
        simp [hp, hin]
      · simp [hp]
    rw [hfil, List.filterMap_nil]
  · rfl

/-- Witness for C3 on the parse of "I am thorough.". -/
theorem effort_passB_self_reference_excluded_witness :
    passBTokenEntries exThoroughList [] exSelfToken = [] :=
  effort_passB_self_reference_excluded exThoroughList [] exSelfToken (by decide)


/-- C4: Pass A adds a lexical flag at exactly (start, stop) for a
(word, start, stop) triple when the lowercased word is in the effort list
— with bias `negative_result * 0.5` and a fixed non-empty remediation
suggestion — and a flag with bias `positive_result * 0.5` and no fix when
the lowercased word is in the accomplishment list; no other lexical flag
is emitted. -/
theorem effort_passA_lexical_characterization :
    ∀ (EFF ACC : List String) (doc : Document) (parsed : List Token) (f : Flag),
      ((EffortDetector.get_report EFF ACC doc parsed).flags =
        effortLexicalFlags EFF ACC doc.words_with_indices ++
          (passBFlagTuples EFF ACC parsed).map tupleFlag) ∧
      (f ∈ effortLexicalFlags EFF ACC doc.words_with_indices ↔
        ∃ w s e, (w, s, e) ∈ doc.words_with_indices ∧
          ((strLower w ∈ EFF ∧
            f = { start := s, stop := e,
                  issue := { name := "Effort vs Accomplishment",
                             description := "The word '" ++ w ++
                               "' tends to speak more about effort than concrete accomplishment.",
                             fix := "Speak about concrete achievement rather than abstract effort.",
                             bias := Issue.negative_result * (1/2) } }) ∨
           (strLower w ∈ ACC ∧
            f = { start := s, stop := e,
                  issue := { name := "Effort vs Accomplishment",
                             description := "The word '" ++ w ++
                               "' illustrates concrete accomplishment.",
                             fix := "",
                             bias := Issue.positive_result * (1/2) } }))) := by
  intro EFF ACC doc parsed f
  constructor
  · rw [effort_get_report_eq]
  · unfold effortLexicalFlags
    rw [List.mem_flatten]
    constructor
    · rintro ⟨l, hl, hf⟩
      obtain ⟨⟨w, s, e⟩, hw, rfl⟩ := List.mem_map.mp hl
      unfold effortLexicalFlagsFor at hf
      rcases List.mem_append.mp hf with h | h
      · split_ifs at h with hm
        · simp only [List.mem_singleton] at h
          exact ⟨w, s, e, hw, Or.inl ⟨hm, h⟩⟩
        · simp at h
      · split_ifs at h with hm
        · simp only [List.mem_singleton] at h
          exact ⟨w, s, e, hw, Or.inr ⟨hm, h⟩⟩
        · simp at h
    · rintro ⟨w, s, e, hw, hcase⟩
      refine ⟨effortLexicalFlagsFor EFF ACC (w, s, e),
        List.mem_map_of_mem _ hw, ?_⟩
      unfold effortLexicalFlagsFor
      rcases hcase with ⟨hm, rfl⟩ | ⟨hm, rfl⟩
      · exact List.mem_append_left _ (by rw [if_pos hm]; exact List.mem_singleton_self _)
      · exact List.mem_append_right _ (by rw [if_pos hm]; exact List.mem_singleton_self _)

/-- C10: the two passes use different case conventions — Pass A tests
the lowercased word against the word lists while Pass B tests the token's
raw surface text — so a capitalized effort word used as an adjectival
complement with a valid referenced subject gets a Pass-A lexical flag but
no Pass-B syntactic flag. -/
theorem effort_case_convention_mismatch :
    (∀ (EFF ACC : List String) (w : String) (s e : ℕ),
      effortLexicalFlagsFor EFF ACC (w, s, e) ≠ [] ↔
        strLower w ∈ EFF ∨ strLower w ∈ ACC) ∧
    (∀ (EFF ACC : List String) (t : Token),
      passBClassify EFF ACC t ≠ none ↔ t.text ∈ ACC ∨ t.text ∈ EFF) ∧
    (effortLexicalFlagsFor exThoroughList [] ("Thorough", 0, 8)).length = 1 ∧
    passBTokenEntries exThoroughList [] exCapitalToken = [] := by
  refine ⟨?_, ?_, by decide, by decide⟩
  · intro EFF ACC w s e
    unfold effortLexicalFlagsFor
    split_ifs <;> simp_all
  · intro EFF ACC t
    unfold passBClassify
    split_ifs <;> simp_all

/-- C1 (evaluation of the summary display bug): on a parse with one
Pass-B effort token and two Pass-B accomplishment tokens the summary
condition holds, but the message interpolates the effort count (1) into
both slots — the actual accomplishment count (2) never appears. -/
theorem effort_summary_cites_effort_count_twice :
    effort_words_count exEffortWords exAccomplishmentWords exSummaryTokens = 1 ∧
    accomplishment_words_count exEffortWords exAccomplishmentWords
      exSummaryTokens = 2 ∧
    (EffortDetector.get_report exEffortWords exAccomplishmentWords exSummaryDoc
        exSummaryTokens).summary =
      "This document has a high ratio of words suggesting effort (1) to words suggesting concrete accomplishment (1)." :=
  ⟨by decide, by decide, by decide⟩

end GenderBias
